import Mathlib

/-!
Verification development for the excel-wizard selection-to-table pipeline.

The definitions below are a shallow embedding of the TypeScript sources:
  src/lib/selection.ts        (range extraction, header inference, CSV)
  src/lib/excel.ts            (parser-side header normalisation and CSV)
  src/components/range-selector.tsx (cell and range encoding)
  src/lib/azure-openai.ts     (suggestion-response parsing)
  src/App.tsx                 (table registry sync)

Modelling conventions:
  - JavaScript cell values are modelled by the inductive CellValue. Numbers
    are restricted to integers (their JS string rendering is the decimal
    numeral, as with Int). A Date value carries two opaque renderings of
    the external JS Date object: its toISOString() result and its
    toString() result.
  - A JS object used as a record (column name to value, insertion ordered,
    assignment overwrites in place) is modelled by an association list
    together with setKey and lookupKey below.
  - The external xlsx utility decode_range is modelled from standard A1
    range semantics: a cell is column letters (bijective base 26) followed
    by a 1-based decimal row; malformed text yields none, which corresponds
    to the exception that extractRangeMatrix catches.
  - Fallible JS code is modelled with Option and Except.
-/

/-- Cell values as they occur in a parsed sheet matrix. vnull models both
JS null and undefined (the code treats them alike via the nullish checks).
vdate carries the toISOString() and toString() renderings of the external
JS Date object. -/
inductive CellValue where
  | vnull : CellValue
  | vstr (s : String) : CellValue
  | vnum (n : Int) : CellValue
  | vdate (iso : String) (str : String) : CellValue
deriving DecidableEq, Repr

/-- A sheet matrix: the raw 2-D grid of cell values (selection.ts, excel.ts). -/
abbrev SheetMatrix := List (List CellValue)

/-- A row record: a JS object mapping column names to values, in key
insertion order. -/
abbrev RowRecord := List (String × CellValue)

/-- JS object property read: first (and only) binding of the key, with
undefined (here vnull-like none) for a missing key. -/
def lookupKey {α : Type} (m : List (String × α)) (k : String) : Option α :=
  match m with
  | [] => none
  | (k1, v) :: rest => if k1 = k then some v else lookupKey rest k

/-- JS object property write: overwrite in place when the key exists,
otherwise append the new binding (insertion order semantics). -/
def setKey {α : Type} (m : List (String × α)) (k : String) (v : α) : List (String × α) :=
  if m.any (fun p => p.1 = k) then
    m.map (fun p => if p.1 = k then (k, v) else p)
  else
    m ++ [(k, v)]

/-- JS object read with undefined collapsed to null, as in the code paths
row[column] that feed nullish checks. -/
def recordGet (m : RowRecord) (k : String) : CellValue :=
  (lookupKey m k).getD CellValue.vnull

/-- JS String.prototype.trim: strip whitespace from both ends, written
structurally on the character list. -/
def jsTrim (s : String) : String :=
  ⟨((s.data.dropWhile Char.isWhitespace).reverse.dropWhile Char.isWhitespace).reverse⟩

/-- JS String.prototype.toLowerCase for the ASCII range, written
structurally on the character list. -/
def jsToLower (s : String) : String :=
  ⟨s.data.map Char.toLower⟩

/-- clamp from selection.ts lines 27-29: Math.max(min, Math.min(max, value)).
The source parameters are named value, min, max. -/
def clamp (value lo hi : Nat) : Nat :=
  max lo (min hi value)

/-- Column-letter loop of cellToExcelNotation (range-selector.tsx lines
26-33): repeatedly prepend the character 65 + c mod 26 and continue with
floor(c / 26) - 1 while c is nonnegative. -/
def colNameChars (c : Nat) : List Char :=
  if _h : c < 26 then [Char.ofNat (65 + c % 26)]
  else colNameChars (c / 26 - 1) ++ [Char.ofNat (65 + c % 26)]
termination_by c
decreasing_by
  have hlt : c / 26 < c := Nat.div_lt_self (by omega) (by omega)
  omega

/-- The colName string accumulated by the while loop in
cellToExcelNotation. -/
def colName (c : Nat) : String := ⟨colNameChars c⟩

/-- Decimal numeral of n, most significant digit first: the rendering JS
template interpolation gives a nonnegative integer. -/
def decimalChars (n : Nat) : List Char :=
  if _h : n < 10 then [Char.ofNat (48 + n % 10)]
  else decimalChars (n / 10) ++ [Char.ofNat (48 + n % 10)]
termination_by n
decreasing_by
  have hlt : n / 10 < n := Nat.div_lt_self (by omega) (by omega)
  omega

/-- cellToExcelNotation (range-selector.tsx lines 26-34): column letters
followed by the 1-based row number. -/
def cellToExcelNotation (row col : Nat) : String :=
  colName col ++ ⟨decimalChars (row + 1)⟩

/-- CellPosition from range-selector.tsx lines 16-19. -/
structure CellPosition where
  row : Nat
  col : Nat
deriving DecidableEq, Repr

/-- SelectionState from range-selector.tsx lines 21-24. -/
structure SelectionState where
  start : Option CellPosition
  «end» : Option CellPosition
deriving DecidableEq, Repr

/-- selectionToRange (range-selector.tsx lines 36-49): empty string when a
corner is absent, otherwise min corner : max corner, min and max taken
independently per axis. -/
def selectionToRange (selection : SelectionState) : String :=
  match selection.start, selection.«end» with
  | some s, some e =>
      cellToExcelNotation (min s.row e.row) (min s.col e.col) ++ ":" ++
        cellToExcelNotation (max s.row e.row) (max s.col e.col)
  | _, _ => ""

/-- Uppercase column letter A through Z. -/
def isColLetter (ch : Char) : Bool :=
  decide (65 ≤ ch.toNat) && decide (ch.toNat ≤ 90)

/-- Decimal digit 0 through 9. -/
def isDigitChar (ch : Char) : Bool :=
  decide (48 ≤ ch.toNat) && decide (ch.toNat ≤ 57)

/-- Bijective base-26 value of a letter run (A is 1, Z is 26, AA is 27). -/
def lettersVal (cs : List Char) : Nat :=
  cs.foldl (fun a ch => a * 26 + (ch.toNat - 64)) 0

/-- Decimal value of a digit run. -/
def digitsVal (cs : List Char) : Nat :=
  cs.foldl (fun a ch => a * 10 + (ch.toNat - 48)) 0

/-- Modelled from the spec: decoding one A1-style cell reference of the
external xlsx collaborator. Letters then digits; the result is the 0-based
(row, col). Anything else, including a 0 row, is malformed and yields
none. -/
def decodeCellChars (cs : List Char) : Option (Nat × Nat) :=
  let letters := cs.takeWhile isColLetter
  let digits := cs.dropWhile isColLetter
  if letters = [] ∨ digits = [] ∨ ¬ digits.all isDigitChar then none
  else if digitsVal digits = 0 then none
  else some (digitsVal digits - 1, lettersVal letters - 1)

/-- Modelled from the spec: utils.decode_range of the external xlsx
collaborator, as used by extractRangeMatrix. A single cell reference, or
two separated by one colon; the result is ((start row, start col),
(end row, end col)). none models the malformed-range failure that the
caller catches. -/
def decode_range (s : String) : Option ((Nat × Nat) × (Nat × Nat)) :=
  let cs := s.data
  let first := cs.takeWhile (fun ch => ch != ':')
  match cs.dropWhile (fun ch => ch != ':') with
  | [] => (decodeCellChars first).map (fun cell => (cell, cell))
  | _ :: rest =>
    if rest.any (fun ch => ch == ':') then none
    else
      match decodeCellChars first, decodeCellChars rest with
      | some a, some b => some (a, b)
      | _, _ => none

/-- The maxCol fold of extractRangeMatrix (selection.ts line 50):
matrix.reduce((acc, row) => Math.max(acc, row.length - 1), 0). Natural
subtraction agrees with the JS value because the accumulator starts at 0. -/
def maxColIndex (matrix : SheetMatrix) : Nat :=
  matrix.foldl (fun acc row => max acc (row.length - 1)) 0

/-- The width fold of processSheet (selection.ts line 123):
reduce((max, row) => Math.max(max, row.length), 0). -/
def maxWidth (matrix : SheetMatrix) : Nat :=
  matrix.foldl (fun mx row => max mx row.length) 0

/-- extractRangeMatrix (selection.ts lines 43-69). A missing or empty range
returns the matrix; so does a decode failure (the catch branch). Otherwise
each decoded bound is clamped into the matrix extent and the rectangle is
copied densely, with null for cells missing from jagged rows. -/
def extractRangeMatrix (matrix : SheetMatrix) (range : Option String) : SheetMatrix :=
  match range with
  | none => matrix
  | some s =>
    if s = "" then matrix
    else
      match decode_range s with
      | none => matrix
      | some ((sr, sc), (er, ec)) =>
        let maxRow := if 0 < matrix.length then matrix.length - 1 else 0
        let maxCol := maxColIndex matrix
        let startRow := clamp sr 0 maxRow
        let endRow := clamp er 0 maxRow
        let startCol := clamp sc 0 maxCol
        let endCol := clamp ec 0 maxCol
        (List.range (endRow + 1 - startRow)).map fun i =>
          (List.range (endCol + 1 - startCol)).map fun j =>
            ((matrix.getD (startRow + i) []).getD (startCol + j) CellValue.vnull)

/-- The fallback column name Column_(index+1), from the constant
FALLBACK_COLUMN_PREFIX = Column shared by selection.ts and excel.ts. -/
def fallbackColumnName (index : Nat) : String :=
  "Column_" ++ toString (index + 1)

/-- buildColumnsFromHeaderRow (selection.ts lines 31-37): for each of width
positions, trim the header cell to a string (null and undefined become the
empty string) and fall back to Column_(index+1) when blank. -/
def buildColumnsFromHeaderRow (headerRow : List CellValue) (width : Nat) : List String :=
  (List.range width).map fun index =>
    let raw := headerRow.getD index CellValue.vnull
    let value :=
      match raw with
      | CellValue.vstr s => jsTrim s
      | CellValue.vnull => ""
      | CellValue.vnum n => jsTrim (toString n)
      | CellValue.vdate _ str => jsTrim str
    if value.length > 0 then value else fallbackColumnName index

/-- Core of normaliseHeaderRow (excel.ts lines 183-195), applied to the
first matrix row and declared width delivered by the external xlsx
collaborator: identical blank-to-fallback policy as
buildColumnsFromHeaderRow. -/
def normaliseHeaderRowCols (firstRow : List CellValue) (finalWidth : Nat) : List String :=
  (List.range finalWidth).map fun index =>
    let raw := firstRow.getD index CellValue.vnull
    let value :=
      match raw with
      | CellValue.vstr s => jsTrim s
      | CellValue.vnull => jsTrim ""
      | CellValue.vnum n => jsTrim (toString n)
      | CellValue.vdate _ str => jsTrim str
    if value.length > 0 then value else fallbackColumnName index

/-- buildGeneratedColumns (selection.ts lines 39-41). -/
def buildGeneratedColumns (width : Nat) : List String :=
  (List.range width).map fun index => fallbackColumnName index

/-- matrixToRows (selection.ts lines 71-81): drop the header row when it is
included, then project each row positionally through the column list into
a record, with null for missing cells. -/
def matrixToRows (matrix : SheetMatrix) (columns : List String) (headerIncluded : Bool) : List RowRecord :=
  let dataRows := if headerIncluded then matrix.drop 1 else matrix
  dataRows.map fun row =>
    columns.enum.foldl (fun record p => setKey record p.2 (row.getD p.1 CellValue.vnull)) []

/-- The test /[",\n]/ of selection.ts line 102 and excel.ts line 208. -/
def needsQuote (s : String) : Bool :=
  s.data.any fun ch => ch == '"' || ch == ',' || ch == '\n'

/-- Quoting a CSV field: double every inner quote and wrap in quotes. -/
def quoteCsv (s : String) : String :=
  "\"" ++ String.join (s.data.map fun ch => if ch == '"' then "\"\"" else String.singleton ch) ++ "\""

/-- The per-field serialisation inlined in rowsToCsv (selection.ts lines
91-102): empty for null and undefined, decimal for numbers, toISOString
for dates, and the quote rule for everything else. -/
def csvField (value : CellValue) : String :=
  match value with
  | CellValue.vnull => ""
  | CellValue.vnum n => toString n
  | CellValue.vdate iso _ => iso
  | CellValue.vstr s => if needsQuote s then quoteCsv s else s

/-- rowsToCsv (selection.ts lines 83-107): empty when there are no columns;
otherwise the raw comma join of the column names, then one serialised line
per row, all joined by newlines. -/
def rowsToCsv (columns : List String) (rows : List RowRecord) : String :=
  if columns.length = 0 then ""
  else
    let header := String.intercalate "," columns
    let lines := rows.map fun row =>
      String.intercalate "," (columns.map fun column => csvField (recordGet row column))
    String.intercalate "\n" (header :: lines)

/-- serialiseValue (excel.ts lines 197-212): same cases as csvField. -/
def serialiseValue (value : CellValue) : String :=
  match value with
  | CellValue.vnull => ""
  | CellValue.vnum n => toString n
  | CellValue.vdate iso _ => iso
  | CellValue.vstr s => if needsQuote s then quoteCsv s else s

/-- buildCsv (excel.ts lines 214-218): serialiseValue is applied to the
header fields as well as to the data fields. -/
def buildCsv (columns : List String) (rows : List RowRecord) : String :=
  let header := String.intercalate "," (columns.map fun c => serialiseValue (CellValue.vstr c))
  let dataRows := rows.map fun row =>
    String.intercalate "," (columns.map fun column => serialiseValue (recordGet row column))
  String.intercalate "\n" (header :: dataRows)

/-- SheetSelection (selection.ts lines 4-7); both fields are optional. -/
structure SheetSelection where
  range : Option String
  firstRowIsHeader : Option Bool
deriving DecidableEq, Repr

/-- ParsedSheet (excel.ts lines 168-174). -/
structure ParsedSheet where
  name : String
  columns : List String
  rows : List RowRecord
  csv : String
  matrix : SheetMatrix
deriving DecidableEq, Repr

/-- ParsedWorkbook (excel.ts lines 176-179). -/
structure ParsedWorkbook where
  fileName : String
  sheets : List ParsedSheet
deriving DecidableEq, Repr

/-- ProcessedSheet (selection.ts lines 13-18). -/
structure ProcessedSheet where
  name : String
  columns : List String
  rows : List RowRecord
  csv : String
deriving DecidableEq, Repr

/-- ProcessedWorkbook (selection.ts lines 20-23). -/
structure ProcessedWorkbook where
  fileName : String
  sheets : List ProcessedSheet
deriving DecidableEq, Repr

/-- WorkbookSelectionConfig (selection.ts lines 9-11): an optional record
of per-sheet selections. -/
structure WorkbookSelectionConfig where
  sheets : Option (List (String × SheetSelection))

/-- The range resolution of processSheet line 110-111: trim the optional
range and treat an empty trim as no range at all. -/
def resolveRange (selection : Option SheetSelection) : Option String :=
  match (selection.bind SheetSelection.range).map jsTrim with
  | none => none
  | some s => if s = "" then none else some s

/-- processSheet (selection.ts lines 109-145). -/
def processSheet (sheet : ParsedSheet) (selection : Option SheetSelection) : ProcessedSheet :=
  let targetMatrix := extractRangeMatrix sheet.matrix (resolveRange selection)
  if targetMatrix.length = 0 then
    { name := sheet.name, columns := [], rows := [], csv := "" }
  else
    let headerIncluded := (selection.bind SheetSelection.firstRowIsHeader) != some false
    let width := maxWidth targetMatrix
    if width = 0 then
      { name := sheet.name, columns := [], rows := [], csv := "" }
    else
      let headerRow := targetMatrix.headD []
      let columns :=
        if headerIncluded then buildColumnsFromHeaderRow headerRow width
        else buildGeneratedColumns width
      let rows := matrixToRows targetMatrix columns headerIncluded
      { name := sheet.name, columns := columns, rows := rows, csv := rowsToCsv columns rows }

/-- applySelection (selection.ts lines 147-157). -/
def applySelection (workbook : ParsedWorkbook) (config : WorkbookSelectionConfig) : ProcessedWorkbook :=
  { fileName := workbook.fileName
    sheets := workbook.sheets.map fun sheet =>
      processSheet sheet (config.sheets.bind fun m => lookupKey m sheet.name) }

/-- Lowercase letter or digit, the character class kept by
normaliseTableName. -/
def isLowerAlnum (ch : Char) : Bool :=
  (decide ('a' ≤ ch) && decide (ch ≤ 'z')) || (decide ('0' ≤ ch) && decide (ch ≤ '9'))

/-- The extension strip fileName.replace of App.tsx line 20: remove a final
dot followed by one or more characters that are neither dots nor slashes. -/
def stripExtension (fileName : String) : String :=
  let rev := fileName.data.reverse
  let ext := rev.takeWhile fun ch => !(ch == '.' || ch == '/')
  match rev.drop ext.length with
  | '.' :: rest => if ext.isEmpty then fileName else ⟨rest.reverse⟩
  | _ => fileName

/-- State machine for the collapse replace of App.tsx line 22: the flag
records whether the previous character was part of a run already replaced
by an underscore. -/
def collapseNonAlnumAux : Bool → List Char → List Char
  | _, [] => []
  | inRun, ch :: rest =>
    if isLowerAlnum ch then ch :: collapseNonAlnumAux false rest
    else if inRun then collapseNonAlnumAux true rest
    else '_' :: collapseNonAlnumAux true rest

/-- The collapse replace of App.tsx line 22: every maximal run of
characters outside [a-z0-9] becomes a single underscore. -/
def collapseNonAlnum (cs : List Char) : List Char :=
  collapseNonAlnumAux false cs

/-- The strip replace of App.tsx line 23: remove leading and trailing
underscores. -/
def stripUnderscores (cs : List Char) : List Char :=
  ((cs.dropWhile fun ch => ch == '_').reverse.dropWhile fun ch => ch == '_').reverse

/-- normaliseTableName (App.tsx lines 19-25). -/
def normaliseTableName (fileName sheetName : String) (index : Nat) : String :=
  let sheetPart := if sheetName = "" then "sheet_" ++ toString (index + 1) else sheetName
  let base := jsToLower (stripExtension fileName ++ "_" ++ sheetPart)
  let collapsed : String := ⟨stripUnderscores (collapseNonAlnum base.data)⟩
  if collapsed.length > 0 then collapsed else "sheet_" ++ toString (index + 1)

/-- The sheet loop of syncTablesWithProcessed (App.tsx lines 62-77). A
sheet with no rows or no columns is skipped. Otherwise its CSV is
registered: registerCsvAsTable (duckdb.ts lines 198-201) throws exactly
when the CSV trims to empty, which aborts the whole sync (none); the
engine itself is modelled as accepting every nonempty CSV. A successful
registration binds sheet.name to the computed table name in the new map. -/
def syncSheets (fileName : String) : Nat → List ProcessedSheet → List (String × String) →
    Option (List (String × String))
  | _, [], newMap => some newMap
  | index, sheet :: rest, newMap =>
    if sheet.rows.length = 0 ∨ sheet.columns.length = 0 then
      syncSheets fileName (index + 1) rest newMap
    else if jsTrim sheet.csv = "" then none
    else
      syncSheets fileName (index + 1) rest
        (setKey newMap sheet.name (normaliseTableName fileName sheet.name index))

/-- syncTablesWithProcessed (App.tsx lines 49-83), restricted to the new
sheet-to-table mapping it computes and returns (the drop of previous
tables is a fire-and-forget engine effect with no bearing on the result). -/
def syncTablesWithProcessed (processed : ProcessedWorkbook) : Option (List (String × String)) :=
  syncSheets processed.fileName 0 processed.sheets []

/-- QuerySuggestion (azure-openai.ts lines 95-98). -/
structure QuerySuggestion where
  query : String
  explanation : String
deriving DecidableEq, Repr

/-- The two fields getSQLQuerySuggestion reads from a parsed JSON object;
none models an absent or falsy field, which parsed.query and
parsed.explanation collapse to the empty string. -/
structure JsonFields where
  query : Option String
  explanation : Option String

/-- The opening brace character, written numerically. -/
def lbrace : Char := Char.ofNat 123

/-- The closing brace character, written numerically. -/
def rbrace : Char := Char.ofNat 125

/-- The greedy JSON-looking match of azure-openai.ts line 146: from the
first opening brace through the last closing brace, when that span is
nonempty. -/
def extractJsonSubstring (s : String) : Option String :=
  let cs := s.data
  match cs.findIdx? (fun ch => ch == lbrace), cs.reverse.findIdx? (fun ch => ch == rbrace) with
  | some i, some jr =>
    let j := cs.length - 1 - jr
    if i ≤ j then some ⟨(cs.drop i).take (j - i + 1)⟩ else none
  | _, _ => none

/-- True when the list starts with the six letters of select, compared
case-insensitively. -/
def isSelectAt (cs : List Char) : Bool :=
  (cs.take 6).map Char.toLower == ['s', 'e', 'l', 'e', 'c', 't']

/-- The leftmost position where select matches, returned as the suffix
starting there. -/
def findSelectSuffix : List Char → Option (List Char)
  | [] => none
  | ch :: rest =>
    if isSelectAt (ch :: rest) then some (ch :: rest) else findSelectSuffix rest

/-- The lazy SQL match of azure-openai.ts line 159: the first
case-insensitive select, extended minimally to the first semicolon after
it. -/
def selectMatch (s : String) : Option String :=
  match findSelectSuffix s.data with
  | none => none
  | some suffix =>
    match (suffix.drop 6).findIdx? (fun ch => ch == ';') with
    | none => none
    | some k => some ⟨suffix.take (6 + k + 1)⟩

/-- The fallback branch of getSQLQuerySuggestion (azure-openai.ts lines
158-163): best-effort SQL extraction, raw response as explanation. -/
def sqlFallbackSuggestion (response : String) : QuerySuggestion :=
  { query := (selectMatch response).getD "", explanation := response }

/-- The response handling of getSQLQuerySuggestion (azure-openai.ts lines
144-163), parametric in the external JSON.parse collaborator: a parsed
JSON-looking substring yields its query and explanation fields (falsy
fields become empty); a missing substring or a parse failure falls back to
SQL extraction. -/
def parseSuggestionResponse (jsonParse : String → Option JsonFields) (response : String) :
    QuerySuggestion :=
  match extractJsonSubstring response with
  | some jsonText =>
    match jsonParse jsonText with
    | some parsed =>
      { query := parsed.query.getD "", explanation := parsed.explanation.getD "" }
    | none => sqlFallbackSuggestion response
  | none => sqlFallbackSuggestion response

/-- getSQLQuerySuggestion (azure-openai.ts lines 100-164) across the chat
boundary: chatResult is the outcome of await chatWithAzureOpenAI, which
throws (error) on any config, network or API failure (azure-openai.ts
lines 26-93). getSQLQuerySuggestion only guards the parsing, so a chat
error propagates to its caller unchanged. -/
def getSQLQuerySuggestion (jsonParse : String → Option JsonFields)
    (chatResult : Except String String) : Except String QuerySuggestion :=
  match chatResult with
  | Except.error e => Except.error e
  | Except.ok response => Except.ok (parseSuggestionResponse jsonParse response)

/-- The scenario sheet of the spec: a three-row matrix with a Name and Age
header row. The parser-side projection fields are irrelevant to
processSheet and left empty. -/
def demoSheetC6 : ParsedSheet :=
  { name := "Sheet1", columns := [], rows := [], csv := ""
    matrix := [[CellValue.vstr "Name", CellValue.vstr "Age"],
               [CellValue.vstr "Ann", CellValue.vstr "30"],
               [CellValue.vstr "Bo", CellValue.vstr "25"]] }

/-- A concrete 2 by 2 matrix used to instantiate the round-trip law. -/
def demoMatrixC1 : SheetMatrix :=
  [[CellValue.vstr "a", CellValue.vstr "b"], [CellValue.vstr "c", CellValue.vstr "d"]]

/-- A processed workbook with one nonempty sheet and one empty sheet, used
to instantiate the table-sync theorem. -/
def demoProcessedWbC8 : ProcessedWorkbook :=
  { fileName := "f.xlsx"
    sheets := [{ name := "Data", columns := ["A"], rows := [[("A", CellValue.vstr "1")]], csv := "A\n1" },
               { name := "Empty", columns := [], rows := [], csv := "" }] }

/-- A sheet whose matrix is empty, used for the empty-matrix boundary. -/
def demoEmptySheet : ParsedSheet :=
  { name := "s", columns := [], rows := [], csv := "", matrix := [] }

/-- A one-row sheet whose single row is empty, the zero-width boundary. -/
def demoZeroWidthSheet : ParsedSheet :=
  { name := "s", columns := [], rows := [], csv := "", matrix := [[]] }

/-- A sheet whose header cell contains a comma, used for the CSV header
quoting boundary. -/
def demoCommaHeaderSheet : ParsedSheet :=
  { name := "s", columns := [], rows := [], csv := ""
    matrix := [[CellValue.vstr "a,b"], [CellValue.vstr "x"]] }

/-- processSheet returns the input sheet name in every branch. -/
theorem processSheet_name (sheet : ParsedSheet) (sel : Option SheetSelection) :
    (processSheet sheet sel).name = sheet.name := by
  simp only [processSheet]
  split
  · rfl
  · split
    · rfl
    · rfl

/-- Claim C10: applySelection keeps the workbook fileName and produces one
processed sheet per input sheet, in order, with the same sheet names: no
sheet is dropped, added, renamed or reordered. -/
theorem applySelection_frame (wb : ParsedWorkbook) (config : WorkbookSelectionConfig) :
    (applySelection wb config).fileName = wb.fileName ∧
    (applySelection wb config).sheets.length = wb.sheets.length ∧
    (applySelection wb config).sheets.map ProcessedSheet.name = wb.sheets.map ParsedSheet.name := by
  refine ⟨rfl, ?_, ?_⟩
  · simp [applySelection]
  · simp [applySelection, List.map_map, Function.comp_def, processSheet_name]

/-- Claim C6: on the matrix [[Name, Age], [Ann, 30], [Bo, 25]] with an
empty range and the first row as header, processSheet yields the columns
Name, Age and the two expected records. -/
theorem processSheet_demo_scenario :
    (processSheet demoSheetC6 (some ⟨some "", some true⟩)).columns = ["Name", "Age"] ∧
    (processSheet demoSheetC6 (some ⟨some "", some true⟩)).rows =
      [[("Name", CellValue.vstr "Ann"), ("Age", CellValue.vstr "30")],
       [("Name", CellValue.vstr "Bo"), ("Age", CellValue.vstr "25")]] := by
  constructor
  · decide
  · decide

/-- Claim C2: for every matrix and nonempty range string on which the
range decoder fails, extractRangeMatrix recovers locally and returns the
entire matrix unchanged. -/
theorem extractRangeMatrix_malformed_range (matrix : SheetMatrix) (s : String)
    (hne : s ≠ "") (hdec : decode_range s = none) :
    extractRangeMatrix matrix (some s) = matrix := by
  simp [extractRangeMatrix, hne, hdec]

/-- Witness for the malformed-range fallback at a concrete matrix and a
concrete undecodable range string. -/
theorem extractRangeMatrix_malformed_range_witness :
    extractRangeMatrix [[CellValue.vstr "x"]] (some "garbage") = [[CellValue.vstr "x"]] :=
  extractRangeMatrix_malformed_range [[CellValue.vstr "x"]] "garbage" (by decide) (by decide)

/-- Claim C3 counterexample: two identical nonblank header cells survive
unchanged, so the produced columns do contain duplicate names. -/
theorem buildColumns_duplicate_counterexample :
    ¬ (buildColumnsFromHeaderRow [CellValue.vstr "A", CellValue.vstr "A"] 2).Nodup := by
  decide

/-- The fallback column name is never the empty string. -/
theorem fallbackColumnName_ne_empty (i : Nat) : fallbackColumnName i ≠ "" := by
  intro h
  have h2 : (fallbackColumnName i).length = 0 := by rw [h]; rfl
  rw [fallbackColumnName, String.length_append] at h2
  have h3 : ("Column_" : String).length = 7 := rfl
  omega

/-- Claim C3 (amended): header normalisation, in both the selection
applier and the parser, gives every one of the width positions a nonblank
identifier, blank cells falling back to Column_(index+1); duplicate
nonblank headers are kept as they are, so the identifiers need not be
pairwise distinct. -/
theorem headerColumns_nonempty_fallback (headerRow : List CellValue) (width : Nat) :
    (buildColumnsFromHeaderRow headerRow width).length = width ∧
    (∀ s ∈ buildColumnsFromHeaderRow headerRow width, s ≠ "") ∧
    (normaliseHeaderRowCols headerRow width).length = width ∧
    (∀ s ∈ normaliseHeaderRowCols headerRow width, s ≠ "") := by
  refine ⟨by simp [buildColumnsFromHeaderRow], ?_, by simp [normaliseHeaderRowCols], ?_⟩
  · intro s hs
    simp only [buildColumnsFromHeaderRow, List.mem_map, List.mem_range] at hs
    obtain ⟨i, _, rfl⟩ := hs
    split
    · rename_i hpos
      intro h
      rw [h] at hpos
      simp at hpos
    · exact fallbackColumnName_ne_empty i
  · intro s hs
    simp only [normaliseHeaderRowCols, List.mem_map, List.mem_range] at hs
    obtain ⟨i, _, rfl⟩ := hs
    split
    · rename_i hpos
      intro h
      rw [h] at hpos
      simp at hpos
    · exact fallbackColumnName_ne_empty i

/-- Witness for the amended header claim at a concrete header row with a
blank cell: both the blank fallback and the nonemptiness of every
identifier are checked at width two. -/
theorem headerColumns_nonempty_fallback_witness :
    (buildColumnsFromHeaderRow [CellValue.vstr "Name", CellValue.vnull] 2).length = 2 ∧
    (∀ s ∈ buildColumnsFromHeaderRow [CellValue.vstr "Name", CellValue.vnull] 2, s ≠ "") ∧
    (normaliseHeaderRowCols [CellValue.vstr "Name", CellValue.vnull] 2).length = 2 ∧
    (∀ s ∈ normaliseHeaderRowCols [CellValue.vstr "Name", CellValue.vnull] 2, s ≠ "") :=
  headerColumns_nonempty_fallback [CellValue.vstr "Name", CellValue.vnull] 2

/-- Claim C9 counterexample: a failure of the chat collaborator is not
caught by getSQLQuerySuggestion and crosses the boundary as an error. -/
theorem getSQL_collab_failure_counterexample :
    getSQLQuerySuggestion (fun _ => none) (Except.error "Azure OpenAI API error: 500 - boom") =
      Except.error "Azure OpenAI API error: 500 - boom" := rfl

/-- Claim C9 (amended): for every successful response text the parsing is
total and defensive, whatever the external JSON parser does: the result is
always an ok suggestion, and when neither a JSON-looking substring nor a
SQL statement can be extracted it degrades to the raw text as explanation
with an empty query. A chatWithAzureOpenAI failure, however, propagates to
the caller unchanged. -/
theorem getSQLQuerySuggestion_defensive_parse (jsonParse : String → Option JsonFields)
    (response : String) :
    (∃ s, getSQLQuerySuggestion jsonParse (Except.ok response) = Except.ok s) ∧
    (extractJsonSubstring response = none → selectMatch response = none →
      getSQLQuerySuggestion jsonParse (Except.ok response) = Except.ok ⟨"", response⟩) := by
  constructor
  · exact ⟨parseSuggestionResponse jsonParse response, rfl⟩
  · intro h1 h2
    simp [getSQLQuerySuggestion, parseSuggestionResponse, h1, sqlFallbackSuggestion, h2]

/-- Witness for the defensive-parse claim at a concrete response with no
braces and no SQL statement. -/
theorem getSQLQuerySuggestion_defensive_parse_witness :
    getSQLQuerySuggestion (fun _ => none) (Except.ok "hello world") =
      Except.ok ⟨"", "hello world"⟩ :=
  (getSQLQuerySuggestion_defensive_parse (fun _ => none) "hello world").2 (by decide) (by decide)

/-- The field serialiser inlined in rowsToCsv agrees with serialiseValue
of excel.ts case by case. -/
theorem csvField_eq_serialiseValue (v : CellValue) : csvField v = serialiseValue v := by
  cases v <;> rfl

/-- On a nonempty column list none of whose names needs quoting, the
selection-applier CSV and the parser CSV coincide. -/
theorem rowsToCsv_eq_buildCsv (columns : List String) (rows : List RowRecord)
    (hne : columns ≠ []) (h : ∀ c ∈ columns, needsQuote c = false) :
    rowsToCsv columns rows = buildCsv columns rows := by
  have hlen : ¬ columns.length = 0 := fun hl => hne (List.length_eq_zero.mp hl)
  have hmap : columns.map (fun c => serialiseValue (CellValue.vstr c)) = columns := by
    conv_rhs => rw [← List.map_id columns]
    refine List.map_congr_left ?_
    intro c hc
    simp [serialiseValue, h c hc]
  simp only [rowsToCsv, buildCsv, if_neg hlen, hmap, csvField_eq_serialiseValue]

/-- processSheet collapses to the canonical empty sheet when the extracted
matrix is empty or has width zero. -/
theorem processSheet_empty_cases (sheet : ParsedSheet) (sel : Option SheetSelection)
    (h : (extractRangeMatrix sheet.matrix (resolveRange sel)).length = 0 ∨
         maxWidth (extractRangeMatrix sheet.matrix (resolveRange sel)) = 0) :
    processSheet sheet sel = { name := sheet.name, columns := [], rows := [], csv := "" } := by
  rcases h with h | h
  · simp [processSheet, h]
  · by_cases hne : (extractRangeMatrix sheet.matrix (resolveRange sel)).length = 0
    · simp [processSheet, hne]
    · simp [processSheet, hne, h]

/-- The main branch of processSheet, spelled out. -/
theorem processSheet_main (sheet : ParsedSheet) (sel : Option SheetSelection)
    (hne : ¬ (extractRangeMatrix sheet.matrix (resolveRange sel)).length = 0)
    (hw : ¬ maxWidth (extractRangeMatrix sheet.matrix (resolveRange sel)) = 0) :
    processSheet sheet sel =
      (let targetMatrix := extractRangeMatrix sheet.matrix (resolveRange sel)
       let headerIncluded := (sel.bind SheetSelection.firstRowIsHeader) != some false
       let width := maxWidth targetMatrix
       let columns :=
         if headerIncluded then buildColumnsFromHeaderRow (targetMatrix.headD []) width
         else buildGeneratedColumns width
       let rows := matrixToRows targetMatrix columns headerIncluded
       { name := sheet.name, columns := columns, rows := rows, csv := rowsToCsv columns rows }) := by
  simp only [processSheet, if_neg hne, if_neg hw]

/-- Claim C4 counterexample: a header cell containing a comma reaches the
processed CSV unquoted, so the CSV differs from the serialisation that
quotes header fields by the same rule as data fields (buildCsv). -/
theorem processSheet_csv_header_quoting_counterexample :
    (processSheet demoCommaHeaderSheet (some ⟨none, some true⟩)).csv = "a,b\nx" ∧
    buildCsv (processSheet demoCommaHeaderSheet (some ⟨none, some true⟩)).columns
        (processSheet demoCommaHeaderSheet (some ⟨none, some true⟩)).rows = "\"a,b\"\nx" ∧
    (processSheet demoCommaHeaderSheet (some ⟨none, some true⟩)).csv ≠
      buildCsv (processSheet demoCommaHeaderSheet (some ⟨none, some true⟩)).columns
        (processSheet demoCommaHeaderSheet (some ⟨none, some true⟩)).rows := by
  exact ⟨by decide, by decide, by decide⟩

/-- Claim C4 (amended): the processed CSV serialises columns then rows in
order, comma separated, with the quote rule (wrap iff the field contains a
comma, quote or newline, doubling inner quotes) applied to the data fields
and ISO-8601 for dates, but the header fields are joined unquoted; hence
the CSV equals the fully quoted serialisation exactly on sheets none of
whose column names needs quoting. -/
theorem processSheet_csv_quoting_amended (sheet : ParsedSheet) (sel : Option SheetSelection)
    (h : ∀ c ∈ (processSheet sheet sel).columns, needsQuote c = false) :
    (processSheet sheet sel).csv =
      buildCsv (processSheet sheet sel).columns (processSheet sheet sel).rows := by
  by_cases hne : (extractRangeMatrix sheet.matrix (resolveRange sel)).length = 0
  · rw [processSheet_empty_cases sheet sel (Or.inl hne)]; rfl
  · by_cases hw : maxWidth (extractRangeMatrix sheet.matrix (resolveRange sel)) = 0
    · rw [processSheet_empty_cases sheet sel (Or.inr hw)]; rfl
    · rw [processSheet_main sheet sel hne hw] at h ⊢
      dsimp only at h ⊢
      apply rowsToCsv_eq_buildCsv _ _ ?_ h
      split
      · intro hc
        have hl := congrArg List.length hc
        simp [buildColumnsFromHeaderRow] at hl
        exact hw hl
      · intro hc
        have hl := congrArg List.length hc
        simp [buildGeneratedColumns] at hl
        exact hw hl

/-- Witness for the amended CSV claim on the scenario sheet, whose column
names are quote-free. -/
theorem processSheet_csv_quoting_amended_witness :
    (processSheet demoSheetC6 (some ⟨some "", some true⟩)).csv =
      buildCsv (processSheet demoSheetC6 (some ⟨some "", some true⟩)).columns
        (processSheet demoSheetC6 (some ⟨some "", some true⟩)).rows :=
  processSheet_csv_quoting_amended demoSheetC6 (some ⟨some "", some true⟩) (by decide)

/-- A clamp with lower bound zero never exceeds its upper bound. -/
theorem clamp_le_hi (v hi : Nat) : clamp v 0 hi ≤ hi := by
  rw [clamp, Nat.zero_max]
  exact Nat.min_le_left hi v

/-- A clamp with lower bound zero is the identity below the upper bound. -/
theorem clamp_eq_of_le (v hi : Nat) (h : v ≤ hi) : clamp v 0 hi = v := by
  rw [clamp, Nat.zero_max]
  exact Nat.min_eq_right h

/-- The extracted matrix never has more rows than the source matrix, up to
the one phantom row produced on an empty matrix. -/
theorem length_extractRangeMatrix_le (m : SheetMatrix) (r : Option String) :
    (extractRangeMatrix m r).length ≤ max m.length 1 := by
  cases r with
  | none => exact Nat.le_max_left _ _
  | some s =>
    by_cases hs : s = ""
    · simp only [extractRangeMatrix, if_pos hs]
      exact Nat.le_max_left _ _
    · cases hdec : decode_range s with
      | none =>
        simp only [extractRangeMatrix, if_neg hs, hdec]
        exact Nat.le_max_left _ _
      | some rc =>
        obtain ⟨⟨sr, sc⟩, er, ec⟩ := rc
        simp only [extractRangeMatrix, if_neg hs, hdec]
        rw [List.length_map, List.length_range]
        by_cases hm : 0 < m.length
        · rw [if_pos hm]
          have h1 : clamp er 0 (m.length - 1) ≤ m.length - 1 := clamp_le_hi _ _
          have h2 : m.length ≤ max m.length 1 := Nat.le_max_left _ _
          omega
        · rw [if_neg hm]
          have h1 : clamp er 0 0 ≤ 0 := clamp_le_hi _ _
          have h2 : (1 : Nat) ≤ max m.length 1 := Nat.le_max_right _ _
          omega

/-- The width fold is bounded by any bound on the accumulator and on every
row length. -/
theorem foldl_max_len_le (rows : SheetMatrix) (L : Nat) :
    ∀ a : Nat, a ≤ L → (∀ row ∈ rows, row.length ≤ L) →
      rows.foldl (fun mx row => max mx row.length) a ≤ L := by
  induction rows with
  | nil => intro a ha _; simpa using ha
  | cons r rs ih =>
    intro a ha h
    simp only [List.foldl_cons]
    refine ih (max a r.length) (Nat.max_le.mpr ⟨ha, h r (List.mem_cons_self _ _)⟩) ?_
    intro row hrow
    exact h row (List.mem_cons_of_mem _ hrow)

/-- Accumulator-generalised comparison of the maxCol fold and the width
fold. -/
theorem foldl_colIndex_le (l : SheetMatrix) :
    ∀ a b : Nat, a + 1 ≤ max b 1 →
      l.foldl (fun acc row => max acc (row.length - 1)) a + 1 ≤
        max (l.foldl (fun mx row => max mx row.length) b) 1 := by
  induction l with
  | nil => intro a b h; simpa using h
  | cons r rs ih =>
    intro a b h
    simp only [List.foldl_cons]
    apply ih
    simp only [Nat.max_def] at h ⊢
    split_ifs at h ⊢ <;> omega

/-- The maxCol bound of extractRangeMatrix is below the width fold of the
same matrix, up to the one phantom column. -/
theorem maxColIndex_succ_le (m : SheetMatrix) : maxColIndex m + 1 ≤ max (maxWidth m) 1 :=
  foldl_colIndex_le m 0 0 (by simp)

/-- The extracted matrix never is wider than the source matrix, up to the
one phantom column produced by clamping into an empty extent. -/
theorem maxWidth_extractRangeMatrix_le (m : SheetMatrix) (r : Option String) :
    maxWidth (extractRangeMatrix m r) ≤ max (maxWidth m) 1 := by
  cases r with
  | none => exact Nat.le_max_left _ _
  | some s =>
    by_cases hs : s = ""
    · simp only [extractRangeMatrix, if_pos hs]
      exact Nat.le_max_left _ _
    · cases hdec : decode_range s with
      | none =>
        simp only [extractRangeMatrix, if_neg hs, hdec]
        exact Nat.le_max_left _ _
      | some rc =>
        obtain ⟨⟨sr, sc⟩, er, ec⟩ := rc
        simp only [extractRangeMatrix, if_neg hs, hdec]
        apply foldl_max_len_le _ _ 0 (Nat.zero_le _)
        intro row hrow
        simp only [List.mem_map, List.mem_range] at hrow
        obtain ⟨i, _, rfl⟩ := hrow
        rw [List.length_map, List.length_range]
        have h1 : clamp ec 0 (maxColIndex m) ≤ maxColIndex m := clamp_le_hi _ _
        have h2 := maxColIndex_succ_le m
        omega

/-- The record count of matrixToRows: the header row, when included, is
consumed. -/
theorem matrixToRows_length (m : SheetMatrix) (cols : List String) (b : Bool) :
    (matrixToRows m cols b).length = if b then m.length - 1 else m.length := by
  cases b <;> simp [matrixToRows]

/-- Claim C5 counterexample: on an empty matrix a decodable range string
clamps into the phantom row, so the processed sheet has one column (and,
with the header flag off, one row), not zero of each. -/
theorem processSheet_empty_matrix_counterexample :
    ¬ ((processSheet demoEmptySheet (some ⟨some "A1:A1", some false⟩)).columns = [] ∧
       (processSheet demoEmptySheet (some ⟨some "A1:A1", some false⟩)).rows = []) := by
  decide

/-- Claim C5 (amended): the processed row count is at most the source row
count and the processed column count at most the source width, each up to
the single phantom row and column that clamping a decoded range into an
empty extent can produce; an empty matrix yields zero columns and zero
rows whenever the resolved range is absent (empty or whitespace), though a
decodable range on an empty matrix can produce the phantom cell. -/
theorem processSheet_dimension_bounds (sheet : ParsedSheet) (sel : Option SheetSelection) :
    (processSheet sheet sel).rows.length ≤ max sheet.matrix.length 1 ∧
    (processSheet sheet sel).columns.length ≤ max (maxWidth sheet.matrix) 1 ∧
    (sheet.matrix = [] → resolveRange sel = none →
      (processSheet sheet sel).columns = [] ∧ (processSheet sheet sel).rows = []) := by
  by_cases hne : (extractRangeMatrix sheet.matrix (resolveRange sel)).length = 0
  · rw [processSheet_empty_cases sheet sel (Or.inl hne)]
    exact ⟨by simp, by simp, fun _ _ => ⟨rfl, rfl⟩⟩
  · by_cases hw : maxWidth (extractRangeMatrix sheet.matrix (resolveRange sel)) = 0
    · rw [processSheet_empty_cases sheet sel (Or.inr hw)]
      exact ⟨by simp, by simp, fun _ _ => ⟨rfl, rfl⟩⟩
    · rw [processSheet_main sheet sel hne hw]
      dsimp only
      refine ⟨?_, ?_, ?_⟩
      · have hT := length_extractRangeMatrix_le sheet.matrix (resolveRange sel)
        rw [matrixToRows_length]
        split <;> omega
      · have hW := maxWidth_extractRangeMatrix_le sheet.matrix (resolveRange sel)
        split
        · simpa [buildColumnsFromHeaderRow] using hW
        · simpa [buildGeneratedColumns] using hW
      · intro hm hr
        exfalso
        apply hne
        rw [hr, hm]
        rfl

/-- Witness for the amended dimension bounds: the empty-matrix, absent
range case is discharged at a concrete sheet. -/
theorem processSheet_dimension_bounds_witness :
    (processSheet demoEmptySheet none).columns = [] ∧
    (processSheet demoEmptySheet none).rows = [] :=
  (processSheet_dimension_bounds demoEmptySheet none).2.2 rfl rfl

/-- Claim C7 counterexample: a one-row matrix whose single row is empty is
short-circuited by the zero-width check, so with the header flag off it
yields zero data rows, not one. -/
theorem processSheet_noheader_counterexample :
    ¬ ((processSheet demoZeroWidthSheet (some ⟨none, some false⟩)).rows.length =
        demoZeroWidthSheet.matrix.length) := by
  decide

/-- Claim C7 (amended): when firstRowIsHeader is false and the selected
sub-matrix is nonempty with nonzero width, processSheet treats every
sub-matrix row as data (none is consumed as a header) and synthesises the
column names Column_1 through Column_w for w the maximum sub-matrix row
width; a sub-matrix that is empty or all of whose rows are empty instead
short-circuits to the empty processed sheet. -/
theorem processSheet_noheader_rows_amended (sheet : ParsedSheet) (sel : Option SheetSelection)
    (hh : sel.bind SheetSelection.firstRowIsHeader = some false)
    (hne : ¬ (extractRangeMatrix sheet.matrix (resolveRange sel)).length = 0)
    (hw : ¬ maxWidth (extractRangeMatrix sheet.matrix (resolveRange sel)) = 0) :
    (processSheet sheet sel).rows.length =
      (extractRangeMatrix sheet.matrix (resolveRange sel)).length ∧
    (processSheet sheet sel).columns =
      (List.range (maxWidth (extractRangeMatrix sheet.matrix (resolveRange sel)))).map
        (fun index => "Column_" ++ toString (index + 1)) := by
  rw [processSheet_main sheet sel hne hw]
  have hb : ((sel.bind SheetSelection.firstRowIsHeader) != some false) = false := by
    rw [hh]; rfl
  dsimp only
  rw [hb]
  simp [matrixToRows_length, buildGeneratedColumns, fallbackColumnName]

/-- Witness for the amended no-header claim at the spec scenario: range
A2:B3 with the header flag off on the three-row demo sheet. -/
theorem processSheet_noheader_rows_amended_witness :
    (processSheet demoSheetC6 (some ⟨some "A2:B3", some false⟩)).rows.length =
      (extractRangeMatrix demoSheetC6.matrix (resolveRange (some ⟨some "A2:B3", some false⟩))).length ∧
    (processSheet demoSheetC6 (some ⟨some "A2:B3", some false⟩)).columns =
      (List.range (maxWidth (extractRangeMatrix demoSheetC6.matrix
          (resolveRange (some ⟨some "A2:B3", some false⟩))))).map
        (fun index => "Column_" ++ toString (index + 1)) :=
  processSheet_noheader_rows_amended demoSheetC6 (some ⟨some "A2:B3", some false⟩) rfl
    (by decide) (by decide)

/-- Unfolding equation of lookupKey at a cons cell. -/
theorem lookupKey_cons {α : Type} (a : String) (b : α) (l : List (String × α)) (q : String) :
    lookupKey ((a, b) :: l) q = if a = q then some b else lookupKey l q := rfl

/-- Overwriting the bindings of one key leaves lookups of other keys
unchanged. -/
theorem lookupKey_map_overwrite {α : Type} (k q : String) (v : α) (h : q ≠ k) :
    ∀ m : List (String × α),
      lookupKey (m.map fun p => if p.1 = k then (k, v) else p) q = lookupKey m q := by
  intro m
  induction m with
  | nil => rfl
  | cons p rest ih =>
    obtain ⟨pk, pv⟩ := p
    simp only [List.map_cons]
    by_cases hp : pk = k
    · subst hp
      rw [if_pos (show ((pk, pv).1 = pk) from rfl), lookupKey_cons, lookupKey_cons,
        if_neg (fun h2 => h h2.symm), if_neg (fun h2 => h h2.symm)]
      exact ih
    · rw [if_neg (show ¬ ((pk, pv).1 = k) from hp), lookupKey_cons, lookupKey_cons]
      by_cases hq : pk = q
      · rw [if_pos hq, if_pos hq]
      · rw [if_neg hq, if_neg hq]
        exact ih

/-- Appending a binding for one key leaves lookups of other keys
unchanged. -/
theorem lookupKey_append_single {α : Type} (k q : String) (v : α) (h : q ≠ k) :
    ∀ m : List (String × α), lookupKey (m ++ [(k, v)]) q = lookupKey m q := by
  intro m
  induction m with
  | nil =>
    simp only [List.nil_append, lookupKey]
    rw [if_neg (fun h2 => h h2.symm)]
  | cons p rest ih =>
    obtain ⟨pk, pv⟩ := p
    simp only [List.cons_append, lookupKey]
    by_cases hq : pk = q
    · simp [hq]
    · simp [hq, ih]

/-- A setKey for one key leaves lookups of other keys unchanged. -/
theorem lookupKey_setKey_ne {α : Type} (m : List (String × α)) (k q : String) (v : α)
    (h : q ≠ k) : lookupKey (setKey m k v) q = lookupKey m q := by
  rw [setKey]
  split
  · exact lookupKey_map_overwrite k q v h m
  · exact lookupKey_append_single k q v h m

/-- Every key reachable in a completed sync result was already in the
accumulator or belongs to a sheet with at least one row and one column. -/
theorem syncSheets_lookup (fileName : String) (sheets : List ProcessedSheet) :
    ∀ (index : Nat) (acc m : List (String × String)),
      syncSheets fileName index sheets acc = some m →
      ∀ q, lookupKey m q = lookupKey acc q ∨
        ∃ sheet ∈ sheets, sheet.name = q ∧ sheet.rows ≠ [] ∧ sheet.columns ≠ [] := by
  induction sheets with
  | nil =>
    intro index acc m h q
    simp only [syncSheets, Option.some.injEq] at h
    subst h
    exact Or.inl rfl
  | cons sheet rest ih =>
    intro index acc m h q
    simp only [syncSheets] at h
    split at h
    · rcases ih _ _ _ h q with h1 | ⟨s, hs, hrest⟩
      · exact Or.inl h1
      · exact Or.inr ⟨s, List.mem_cons_of_mem _ hs, hrest⟩
    · split at h
      · exact absurd h (by simp)
      · rename_i hne _
        by_cases hq : q = sheet.name
        · subst hq
          refine Or.inr ⟨sheet, List.mem_cons_self _ _, rfl, ?_, ?_⟩
          · intro hr; exact hne (Or.inl (by simp [hr]))
          · intro hc; exact hne (Or.inr (by simp [hc]))
        · rcases ih _ _ _ h q with h1 | ⟨s, hs, hrest⟩
          · rw [lookupKey_setKey_ne _ _ _ _ hq] at h1
            exact Or.inl h1
          · exact Or.inr ⟨s, List.mem_cons_of_mem _ hs, hrest⟩

/-- A key absent from the accumulator whose sheets are all empty stays
absent from a completed sync result. -/
theorem syncSheets_absent (fileName : String) (sheets : List ProcessedSheet) :
    ∀ (index : Nat) (acc m : List (String × String)) (q : String),
      syncSheets fileName index sheets acc = some m →
      lookupKey acc q = none →
      (∀ sheet ∈ sheets, sheet.name = q → sheet.rows = [] ∨ sheet.columns = []) →
      lookupKey m q = none := by
  induction sheets with
  | nil =>
    intro index acc m q h hacc _
    simp only [syncSheets, Option.some.injEq] at h
    subst h
    exact hacc
  | cons sheet rest ih =>
    intro index acc m q h hacc hall
    simp only [syncSheets] at h
    split at h
    · exact ih _ _ _ _ h hacc (fun s hs => hall s (List.mem_cons_of_mem _ hs))
    · split at h
      · exact absurd h (by simp)
      · rename_i hne _
        by_cases hq : sheet.name = q
        · exfalso
          apply hne
          rcases hall sheet (List.mem_cons_self _ _) hq with h1 | h1
          · exact Or.inl (by simp [h1])
          · exact Or.inr (by simp [h1])
        · refine ih _ _ _ _ h ?_ (fun s hs => hall s (List.mem_cons_of_mem _ hs))
          rw [lookupKey_setKey_ne _ _ _ _ (fun hqq => hq hqq.symm)]
          exact hacc

/-- Claim C8: on a workbook with distinct sheet names, a completed table
sync never maps the name of a sheet whose processed output has zero rows
or zero columns, and every mapped name belongs to a sheet with at least
one row and at least one column. -/
theorem syncTables_skips_empty_sheets (wb : ProcessedWorkbook) (m : List (String × String))
    (hnd : (wb.sheets.map ProcessedSheet.name).Nodup)
    (h : syncTablesWithProcessed wb = some m) :
    (∀ sheet ∈ wb.sheets, (sheet.rows = [] ∨ sheet.columns = []) →
      lookupKey m sheet.name = none) ∧
    (∀ q v, lookupKey m q = some v →
      ∃ sheet ∈ wb.sheets, sheet.name = q ∧ sheet.rows ≠ [] ∧ sheet.columns ≠ []) := by
  constructor
  · intro sheet hs hemp
    refine syncSheets_absent wb.fileName wb.sheets 0 [] m sheet.name h rfl ?_
    intro s hs2 hname
    have hss : s = sheet := List.inj_on_of_nodup_map hnd hs2 hs hname
    rw [hss]
    exact hemp
  · intro q v hv
    rcases syncSheets_lookup wb.fileName wb.sheets 0 [] m h q with h1 | h2
    · rw [hv] at h1
      simp [lookupKey] at h1
    · exact h2

/-- Witness for the table-sync claim at a concrete workbook with one
nonempty and one empty sheet, whose sync result maps only the nonempty
one. -/
theorem syncTables_skips_empty_sheets_witness :
    (∀ sheet ∈ demoProcessedWbC8.sheets, (sheet.rows = [] ∨ sheet.columns = []) →
      lookupKey [("Data", "f_data")] sheet.name = none) ∧
    (∀ q v, lookupKey [("Data", "f_data")] q = some v →
      ∃ sheet ∈ demoProcessedWbC8.sheets, sheet.name = q ∧ sheet.rows ≠ [] ∧ sheet.columns ≠ []) :=
  syncTables_skips_empty_sheets demoProcessedWbC8 [("Data", "f_data")] (by decide) (by decide)

/-- Char.ofNat inverts toNat on the ASCII range. -/
theorem char_toNat_ofNat_lt128 : ∀ n < 128, (Char.ofNat n).toNat = n := by decide

/-- Unfolding of the column-letter class. -/
theorem isColLetter_iff (ch : Char) : isColLetter ch = true ↔ 65 ≤ ch.toNat ∧ ch.toNat ≤ 90 := by
  simp [isColLetter]

/-- Unfolding of the digit class. -/
theorem isDigitChar_iff (ch : Char) : isDigitChar ch = true ↔ 48 ≤ ch.toNat ∧ ch.toNat ≤ 57 := by
  simp [isDigitChar]

/-- The column-letter loop emits at least one character. -/
theorem colNameChars_ne_nil (c : Nat) : colNameChars c ≠ [] := by
  rw [colNameChars]
  split <;> simp

/-- Every character the column-letter loop emits is an uppercase letter. -/
theorem colNameChars_all_letters (c : Nat) :
    ∀ ch ∈ colNameChars c, isColLetter ch = true := by
  induction c using Nat.strong_induction_on with
  | _ c ih =>
    intro ch hch
    rw [colNameChars] at hch
    have hte : (Char.ofNat (65 + c % 26)).toNat = 65 + c % 26 := by
      have hlt : c % 26 < 26 := Nat.mod_lt _ (by omega)
      exact char_toNat_ofNat_lt128 _ (by omega)
    have hmod : c % 26 < 26 := Nat.mod_lt _ (by omega)
    split at hch
    · rw [List.mem_singleton] at hch
      subst hch
      rw [isColLetter_iff, hte]
      omega
    · rcases List.mem_append.mp hch with h | h
      · rename_i hge
        have hdiv : c / 26 < c := Nat.div_lt_self (by omega) (by omega)
        exact ih (c / 26 - 1) (by omega) ch h
      · rw [List.mem_singleton] at h
        subst h
        rw [isColLetter_iff, hte]
        omega

/-- The decimal loop emits at least one character. -/
theorem decimalChars_ne_nil (n : Nat) : decimalChars n ≠ [] := by
  rw [decimalChars]
  split <;> simp

/-- Every character the decimal loop emits is a digit. -/
theorem decimalChars_all_digits (n : Nat) :
    ∀ ch ∈ decimalChars n, isDigitChar ch = true := by
  induction n using Nat.strong_induction_on with
  | _ n ih =>
    intro ch hch
    rw [decimalChars] at hch
    have hte : (Char.ofNat (48 + n % 10)).toNat = 48 + n % 10 := by
      have hlt : n % 10 < 10 := Nat.mod_lt _ (by omega)
      exact char_toNat_ofNat_lt128 _ (by omega)
    have hmod : n % 10 < 10 := Nat.mod_lt _ (by omega)
    split at hch
    · rw [List.mem_singleton] at hch
      subst hch
      rw [isDigitChar_iff, hte]
      omega
    · rcases List.mem_append.mp hch with h | h
      · rename_i hge
        have hdiv : n / 10 < n := Nat.div_lt_self (by omega) (by omega)
        exact ih (n / 10) (by omega) ch h
      · rw [List.mem_singleton] at h
        subst h
        rw [isDigitChar_iff, hte]
        omega

/-- Folding one more letter multiplies by 26 and adds its value. -/
theorem lettersVal_append_single (xs : List Char) (ch : Char) :
    lettersVal (xs ++ [ch]) = lettersVal xs * 26 + (ch.toNat - 64) := by
  simp [lettersVal, List.foldl_append]

/-- Folding one more digit multiplies by 10 and adds its value. -/
theorem digitsVal_append_single (xs : List Char) (ch : Char) :
    digitsVal (xs ++ [ch]) = digitsVal xs * 10 + (ch.toNat - 48) := by
  simp [digitsVal, List.foldl_append]

/-- The letter-run value inverts the column-letter loop: the encoding of c
decodes to c + 1 in bijective base 26. -/
theorem lettersVal_colNameChars (c : Nat) : lettersVal (colNameChars c) = c + 1 := by
  induction c using Nat.strong_induction_on with
  | _ c ih =>
    have hte : (Char.ofNat (65 + c % 26)).toNat = 65 + c % 26 := by
      have hlt : c % 26 < 26 := Nat.mod_lt _ (by omega)
      exact char_toNat_ofNat_lt128 _ (by omega)
    have hmod : c % 26 < 26 := Nat.mod_lt _ (by omega)
    rw [colNameChars]
    split
    · rename_i h
      have hone : lettersVal [Char.ofNat (65 + c % 26)] =
          (Char.ofNat (65 + c % 26)).toNat - 64 := by
        simp [lettersVal]
      rw [hone, hte]
      omega
    · rename_i h
      rw [lettersVal_append_single, hte]
      have hdiv : c / 26 < c := Nat.div_lt_self (by omega) (by omega)
      rw [ih (c / 26 - 1) (by omega)]
      have h1 : 26 * (c / 26) + c % 26 = c := Nat.div_add_mod c 26
      have h2 : 1 ≤ c / 26 := (Nat.one_le_div_iff (by omega)).mpr (by omega)
      omega

/-- The digit-run value inverts the decimal loop. -/
theorem digitsVal_decimalChars (n : Nat) : digitsVal (decimalChars n) = n := by
  induction n using Nat.strong_induction_on with
  | _ n ih =>
    have hte : (Char.ofNat (48 + n % 10)).toNat = 48 + n % 10 := by
      have hlt : n % 10 < 10 := Nat.mod_lt _ (by omega)
      exact char_toNat_ofNat_lt128 _ (by omega)
    have hmod : n % 10 < 10 := Nat.mod_lt _ (by omega)
    rw [decimalChars]
    split
    · rename_i h
      have hone : digitsVal [Char.ofNat (48 + n % 10)] =
          (Char.ofNat (48 + n % 10)).toNat - 48 := by
        simp [digitsVal]
      rw [hone, hte]
      omega
    · rename_i h
      rw [digitsVal_append_single, hte]
      have hdiv : n / 10 < n := Nat.div_lt_self (by omega) (by omega)
      rw [ih (n / 10) (by omega)]
      have h1 : 10 * (n / 10) + n % 10 = n := Nat.div_add_mod n 10
      omega

/-- takeWhile and dropWhile split an append exactly at the first failing
character. -/
theorem takeWhile_dropWhile_append {p : Char → Bool} :
    ∀ (xs ys : List Char), (∀ a ∈ xs, p a = true) →
      (∀ y yt, ys = y :: yt → p y = false) →
      (xs ++ ys).takeWhile p = xs ∧ (xs ++ ys).dropWhile p = ys := by
  intro xs
  induction xs with
  | nil =>
    intro ys _ hy
    cases ys with
    | nil => exact ⟨rfl, rfl⟩
    | cons y yt =>
      constructor
      · simp [List.takeWhile_cons, hy y yt rfl]
      · simp [List.dropWhile_cons, hy y yt rfl]
  | cons x xt ih =>
    intro ys hx hy
    have hpx : p x = true := hx x (List.mem_cons_self _ _)
    obtain ⟨h1, h2⟩ := ih ys (fun a ha => hx a (List.mem_cons_of_mem _ ha)) hy
    constructor
    · simp [List.takeWhile_cons, hpx, h1]
    · simp [List.dropWhile_cons, hpx, h2]

/-- Decoding inverts the cell encoding: the letter run and digit run of
an encoded cell split exactly, and their values give back the original
0-based row and column. -/
theorem decodeCellChars_encode (row col : Nat) :
    decodeCellChars (colNameChars col ++ decimalChars (row + 1)) = some (row, col) := by
  have hdne : decimalChars (row + 1) ≠ [] := decimalChars_ne_nil _
  have hdall : ∀ ch ∈ decimalChars (row + 1), isDigitChar ch = true := decimalChars_all_digits _
  have hhead : ∀ y yt, decimalChars (row + 1) = y :: yt → isColLetter y = false := by
    intro y yt heq
    have hy : isDigitChar y = true := hdall y (by rw [heq]; exact List.mem_cons_self _ _)
    have hyd := (isDigitChar_iff y).mp hy
    cases hcl : isColLetter y
    · rfl
    · exfalso
      have hyl := (isColLetter_iff y).mp hcl
      omega
  obtain ⟨ht, hd⟩ := takeWhile_dropWhile_append (colNameChars col) (decimalChars (row + 1))
      (colNameChars_all_letters col) hhead
  have hcond : ¬ (colNameChars col = [] ∨ decimalChars (row + 1) = [] ∨
      ¬ (decimalChars (row + 1)).all isDigitChar) := by
    push_neg
    refine ⟨colNameChars_ne_nil col, hdne, ?_⟩
    rw [List.all_eq_true]
    exact hdall
  simp only [decodeCellChars, ht, hd]
  rw [if_neg hcond, if_neg (by rw [digitsVal_decimalChars]; omega),
    digitsVal_decimalChars, lettersVal_colNameChars]
  simp

/-- No character of an encoded cell is a colon. -/
theorem cellChars_no_colon (row col : Nat) :
    ∀ a ∈ colNameChars col ++ decimalChars (row + 1), (a != ':') = true := by
  intro a ha
  rw [bne_iff_ne]
  intro heq
  subst heq
  have h58 : (':' : Char).toNat = 58 := rfl
  rcases List.mem_append.mp ha with h | h
  · have hl := (isColLetter_iff _).mp (colNameChars_all_letters col _ h)
    rw [h58] at hl
    omega
  · have hdg := (isDigitChar_iff _).mp (decimalChars_all_digits _ _ h)
    rw [h58] at hdg
    omega

/-- Decoding inverts the range encoding built from two encoded cells. -/
theorem decode_range_encode (r0 c0 r1 c1 : Nat) :
    decode_range ( cellToExcelNotation r0 c0 ++ ":" ++ cellToExcelNotation r1 c1 ) =
      some ((r0, c0), (r1, c1)) := by
  have hdata : ( cellToExcelNotation r0 c0 ++ ":" ++ cellToExcelNotation r1 c1 ).data =
      (colNameChars c0 ++ decimalChars (r0 + 1)) ++ ':' ::
        (colNameChars c1 ++ decimalChars (r1 + 1)) := by
    simp [cellToExcelNotation, colName, String.data_append]
  obtain ⟨ht, hd⟩ := takeWhile_dropWhile_append
      (colNameChars c0 ++ decimalChars (r0 + 1))
      (':' :: (colNameChars c1 ++ decimalChars (r1 + 1)))
      (cellChars_no_colon r0 c0) (by intro y yt heq; cases heq; rfl)
  have hany : (colNameChars c1 ++ decimalChars (r1 + 1)).any (fun ch => ch == ':') = false := by
    rw [List.any_eq_false]
    intro x hx
    have hne := cellChars_no_colon r1 c1 x hx
    rw [bne_iff_ne] at hne
    simp [hne]
  simp only [decode_range, hdata, ht, hd]
  rw [hany]
  simp only [Bool.false_eq_true, if_false, decodeCellChars_encode]

/-- Claim C1: for every rectangle ordered corner to corner and lying within
the matrix bounds, encoding the selection with selectionToRange and then
decoding and clamping it in extractRangeMatrix yields exactly the
sub-matrix spanning rows r0..r1 and columns c0..c1. -/
theorem selectionToRange_extract_roundtrip (matrix : SheetMatrix) (r0 c0 r1 c1 : Nat)
    (hr : r0 ≤ r1) (hc : c0 ≤ c1) (hrow : r1 < matrix.length)
    (hcol : c1 ≤ maxColIndex matrix) :
    extractRangeMatrix matrix
        (some ( selectionToRange ⟨some ⟨r0, c0⟩, some ⟨r1, c1⟩⟩ )) =
      (List.range (r1 + 1 - r0)).map (fun i =>
        (List.range (c1 + 1 - c0)).map (fun j =>
          (matrix.getD (r0 + i) []).getD (c0 + j) CellValue.vnull)) := by
  have hsel : selectionToRange ⟨some ⟨r0, c0⟩, some ⟨r1, c1⟩⟩ =
      cellToExcelNotation r0 c0 ++ ":" ++ cellToExcelNotation r1 c1 := by
    simp [selectionToRange, Nat.min_eq_left hr, Nat.min_eq_left hc,
      Nat.max_eq_right hr, Nat.max_eq_right hc]
  rw [hsel]
  have hne : cellToExcelNotation r0 c0 ++ ":" ++ cellToExcelNotation r1 c1 ≠ "" := by
    intro h
    have hdata := congrArg String.data h
    simp [cellToExcelNotation, colName, String.data_append] at hdata
  simp only [extractRangeMatrix, if_neg hne, decode_range_encode]
  have hmlen : 0 < matrix.length := by omega
  rw [if_pos hmlen,
    clamp_eq_of_le r0 _ (by omega), clamp_eq_of_le r1 _ (by omega),
    clamp_eq_of_le c0 _ (by omega), clamp_eq_of_le c1 _ hcol]

/-- Witness for the round-trip law on a concrete 2 by 2 matrix with the
full rectangle selected. -/
theorem selectionToRange_extract_roundtrip_witness :
    extractRangeMatrix demoMatrixC1
        (some ( selectionToRange ⟨some ⟨0, 0⟩, some ⟨1, 1⟩⟩ )) =
      (List.range (1 + 1 - 0)).map (fun i =>
        (List.range (1 + 1 - 0)).map (fun j =>
          (demoMatrixC1.getD (0 + i) []).getD (0 + j) CellValue.vnull)) :=
  selectionToRange_extract_roundtrip demoMatrixC1 0 0 1 1 (by decide) (by decide)
    (by decide) (by decide)
